import Mathlib

/-!
Verification of the plan-execution, caching and signature layer of
`multi_agent_toolbox.py` (math_toolbox_mvp).

Modelling conventions
- Numeric values (Python floats coming from the JSON plan) are modelled by
  exact rationals; the claims under study concern exactness, error paths and
  state, not float rounding, so non-finite floats and rounding are outside
  the model.
- A parsed plan is modelled by the structure `Plan`; the field
  `final_step_index` is an `Option Int` so that an absent JSON field is
  `none`, matching `plan.get("final_step_index", len(steps)-1)`.
- The random source consumed by the unreliable primitives is modelled by a
  function `Nat → Draw`: the n-th call to an unreliable primitive sees the
  n-th draw, which fixes both the failure test `random.random() < fail_rate`
  and the decoy value `random.randint(-100, 100)`.
- Python exceptions escaping a function are modelled with `Except`;
  the distinct exception classes raised by the source are the constructors
  of `ExecErr`.
-/

deriving instance DecidableEq for Except

namespace Toolbox

/-- One draw of the random source used by an unreliable primitive:
`fails` is the outcome of the test `random.random() < fail_rate`, and
`decoy` is the value `random.randint(-100, 100)` would return in the
failure branch. -/
structure Draw where
  fails : Bool
  decoy : Int
deriving DecidableEq, Repr

/-- The exceptions raised by plan execution in `multi_agent_toolbox.py`:
JSON decode errors from `json.loads`, the ValueError raised for a SUM or
PRODUCT step with fewer than two arguments, the ValueError
"invalid final_step_index", the ValueError for an unknown tool, the
ZeroDivisionError raised by `quotient`, `modulo` and Python float `**`,
and the IndexError raised by an out-of-range list subscript. -/
inductive ExecErr where
  | planParse (msg : String)
  | arityMismatch (msg : String)
  | malformedPlan
  | unknownTool (tool : String) (step : Nat)
  | divisionByZero (msg : String)
  | indexError
deriving DecidableEq, Repr

/-- Python `str(e)` for the modelled exceptions (Python quotes the tool name in
the unknown-tool message; the quotes are dropped here). -/
def ExecErr.toMessage : ExecErr → String
  | .planParse m => m
  | .arityMismatch m => m
  | .malformedPlan => "invalid final_step_index"
  | .unknownTool t i => "Unknown tool " ++ t ++ " at step " ++ toString i
  | .divisionByZero m => m
  | .indexError => "list index out of range"

/-- Model of `unreliable_sum`: on a failing draw it returns the decoy integer,
otherwise `a + b`. -/
def unreliable_sum (d : Draw) (a b : ℚ) : ℚ :=
  if d.fails then (d.decoy : ℚ) else a + b

/-- Model of `unreliable_product`: on a failing draw it returns the decoy integer,
otherwise `a * b`. -/
def unreliable_product (d : Draw) (a b : ℚ) : ℚ :=
  if d.fails then (d.decoy : ℚ) else a * b

/-- Model of `delta`: reliable difference `b - a`. -/
def delta (a b : ℚ) : ℚ := b - a

/-- Model of `quotient`: raises ZeroDivisionError when `b = 0`, else `a / b`. -/
def quotient (a b : ℚ) : Except ExecErr ℚ :=
  if b = 0 then .error (.divisionByZero "Division by zero.") else .ok (a / b)

/-- Model of `modulo`: raises ZeroDivisionError when `b = 0`, else Python float `%`,
whose value is `a - b * floor (a / b)`. -/
def modulo (a b : ℚ) : Except ExecErr ℚ :=
  if b = 0 then .error (.divisionByZero "Modulo by zero.")
  else .ok (a - b * ((Int.floor (a / b) : Int) : ℚ))

/-- Model of `power`: Python float `a ** b`. It raises ZeroDivisionError when the
base is 0 and the exponent negative. For an integer exponent the value is
the exact power. A non-integer exponent generally yields an irrational or
complex float, which has no exact rational counterpart; that branch is
outside the rational value model and is mapped to 0 (no statement below
depends on it). -/
def power (a b : ℚ) : Except ExecErr ℚ :=
  if a = 0 ∧ b < 0 then
    .error (.divisionByZero "0.0 cannot be raised to a negative power")
  else .ok (if b.den = 1 then a ^ b.num else 0)

/-- Model of `absolute`: reliable absolute value. -/
def absolute (a : ℚ) : ℚ := |a|

/-- Python `str.upper` on one character, for the ASCII alphabet the
program uses. -/
def pyUpperChar (c : Char) : Char :=
  if 97 ≤ c.toNat ∧ c.toNat ≤ 122 then Char.ofNat (c.toNat - 32) else c

/-- Python `str.upper` (ASCII). -/
def pyUpper (s : String) : String := String.mk (s.data.map pyUpperChar)

/-- Python `str.lower` on one character, for the ASCII alphabet the
program uses. -/
def pyLowerChar (c : Char) : Char :=
  if 65 ≤ c.toNat ∧ c.toNat ≤ 90 then Char.ofNat (c.toNat + 32) else c

/-- The ASCII whitespace characters removed by Python `str.strip`:
space, tab, newline, carriage return, vertical tab, form feed. -/
def pyIsSpace (c : Char) : Bool :=
  decide (c.toNat = 32 ∨ c.toNat = 9 ∨ c.toNat = 10 ∨
    c.toNat = 13 ∨ c.toNat = 11 ∨ c.toNat = 12)

/-- Removal of leading whitespace, the first half of `str.strip`. -/
def lstripChars (l : List Char) : List Char := l.dropWhile pyIsSpace

/-- Removal of trailing whitespace, the second half of `str.strip`. -/
def rstripChars (l : List Char) : List Char :=
  (l.reverse.dropWhile pyIsSpace).reverse

/-- Python `str.strip`: leading and trailing whitespace removed. -/
def pyStripChars (l : List Char) : List Char := rstripChars (lstripChars l)

/-- Model of `get_question_signature`: `question.strip().lower()`. -/
def get_question_signature (q : String) : String :=
  String.mk ((pyStripChars q.data).map pyLowerChar)

/-- Model of `verify_unreliable`: recompute the exact value for SUM and PRODUCT and
compare with the candidate; every other tool is treated as reliable. -/
def verify_unreliable (tool_name : String) (a b candidate : ℚ) : Bool :=
  let t := pyUpper tool_name
  if t = "SUM" then decide (candidate = a + b)
  else if t = "PRODUCT" then decide (candidate = a * b)
  else true

/-- One step of a parsed plan: `stp.get("tool","")` and
`stp.get("args", [])`, so a missing field is the default value. -/
structure Step where
  tool : String
  args : List ℚ
deriving DecidableEq, Repr

/-- A parsed plan: `plan.get("steps", [])` and the optional
`final_step_index` field. -/
structure Plan where
  steps : List Step
  final_step_index : Option Int
deriving DecidableEq, Repr

/-- Python list subscription `args[k]` for a nonnegative literal index:
IndexError when the index is out of range. -/
def getArg (args : List ℚ) (k : Nat) : Except ExecErr ℚ :=
  match args.get? k with
  | some v => .ok v
  | none => .error .indexError

/-- Python list subscription `results[i]` for a possibly negative index:
a negative index counts from the end; out of range raises IndexError. -/
def pyIndex (xs : List ℚ) (i : Int) : Except ExecErr ℚ :=
  let j : Int := if i < 0 then i + (xs.length : Int) else i
  if j < 0 then .error .indexError
  else
    match xs.get? j.toNat with
    | some v => .ok v
    | none => .error .indexError

/-- One iteration of the step loop of `execute_plan`, at step index `i`,
with `n` unreliable-primitive calls made so far. Returns the step value
together with the updated call count; the count advances exactly when
`unreliable_sum` or `unreliable_product` is invoked. -/
def execStep (rng : Nat → Draw) (n : Nat) (i : Nat) (stp : Step) :
    Except ExecErr (ℚ × Nat) :=
  let tool := pyUpper stp.tool
  let args := stp.args
  if tool = "SUM" then
    if args.length < 2 then .error (.arityMismatch "SUM needs 2 args") else
    match getArg args 0, getArg args 1 with
    | .ok a, .ok b =>
      let cand := unreliable_sum (rng n) a b
      .ok ((if verify_unreliable "SUM" a b cand then cand else a + b), n + 1)
    | .error e, _ => .error e
    | .ok _, .error e => .error e
  else if tool = "PRODUCT" then
    if args.length < 2 then .error (.arityMismatch "PRODUCT needs 2 args") else
    match getArg args 0, getArg args 1 with
    | .ok a, .ok b =>
      let cand := unreliable_product (rng n) a b
      .ok ((if verify_unreliable "PRODUCT" a b cand then cand else a * b), n + 1)
    | .error e, _ => .error e
    | .ok _, .error e => .error e
  else if tool = "DELTA" then
    match getArg args 0, getArg args 1 with
    | .ok a, .ok b => .ok (delta a b, n)
    | .error e, _ => .error e
    | .ok _, .error e => .error e
  else if tool = "QUOTIENT" then
    match getArg args 0, getArg args 1 with
    | .ok a, .ok b =>
      (match quotient a b with
       | .ok v => .ok (v, n)
       | .error e => .error e)
    | .error e, _ => .error e
    | .ok _, .error e => .error e
  else if tool = "MODULO" then
    match getArg args 0, getArg args 1 with
    | .ok a, .ok b =>
      (match modulo a b with
       | .ok v => .ok (v, n)
       | .error e => .error e)
    | .error e, _ => .error e
    | .ok _, .error e => .error e
  else if tool = "POWER" then
    match getArg args 0, getArg args 1 with
    | .ok a, .ok b =>
      (match power a b with
       | .ok v => .ok (v, n)
       | .error e => .error e)
    | .error e, _ => .error e
    | .ok _, .error e => .error e
  else if tool = "ABS" then
    match getArg args 0 with
    | .ok a => .ok (absolute a, n)
    | .error e => .error e
  else .error (.unknownTool tool i)

/-- The step loop of `execute_plan`: one value per step, in order, with the
unreliable-call counter threaded through. -/
def execSteps (rng : Nat → Draw) : List Step → Nat → Nat →
    Except ExecErr (List ℚ × Nat)
  | [], _, n => .ok ([], n)
  | stp :: rest, i, n =>
    match execStep rng n i stp with
    | .error e => .error e
    | .ok (out, n') =>
      match execSteps rng rest (i + 1) n' with
      | .error e => .error e
      | .ok (outs, n'') => .ok (out :: outs, n'')

/-- Model of `execute_plan` on a parsed plan: default the final index to
`len(steps) - 1`, reject a final index `≥ len(steps)`, run the steps,
and return the result list entry at the final index (Python subscript
semantics, so a negative index counts from the end). -/
def execute_plan (rng : Nat → Draw) (plan : Plan) : Except ExecErr ℚ :=
  let steps := plan.steps
  let final_idx : Int := plan.final_step_index.getD ((steps.length : Int) - 1)
  if (steps.length : Int) ≤ final_idx then .error .malformedPlan
  else
    match execSteps rng steps 0 0 with
    | .error e => .error e
    | .ok (results, _) => pyIndex results final_idx

/-- Number of unreliable-primitive calls a step makes when it executes:
one for a SUM or PRODUCT step, zero otherwise. -/
def unreliableCost (stp : Step) : Nat :=
  if pyUpper stp.tool = "SUM" ∨ pyUpper stp.tool = "PRODUCT" then 1 else 0

/-- Total unreliable-primitive calls of a step list. -/
def unreliableCount (l : List Step) : Nat := (l.map unreliableCost).sum

/-- Reference semantics of one step, following the specification wording:
an unreliable step contributes the exact mathematical result (`a + b` for
SUM, `a * b` for PRODUCT) with no random source involved; every other
case is as in `execStep`. -/
def execStepSpec (i : Nat) (stp : Step) : Except ExecErr ℚ :=
  let tool := pyUpper stp.tool
  let args := stp.args
  if tool = "SUM" then
    if args.length < 2 then .error (.arityMismatch "SUM needs 2 args") else
    match getArg args 0, getArg args 1 with
    | .ok a, .ok b => .ok (a + b)
    | .error e, _ => .error e
    | .ok _, .error e => .error e
  else if tool = "PRODUCT" then
    if args.length < 2 then .error (.arityMismatch "PRODUCT needs 2 args") else
    match getArg args 0, getArg args 1 with
    | .ok a, .ok b => .ok (a * b)
    | .error e, _ => .error e
    | .ok _, .error e => .error e
  else if tool = "DELTA" then
    match getArg args 0, getArg args 1 with
    | .ok a, .ok b => .ok (delta a b)
    | .error e, _ => .error e
    | .ok _, .error e => .error e
  else if tool = "QUOTIENT" then
    match getArg args 0, getArg args 1 with
    | .ok a, .ok b => quotient a b
    | .error e, _ => .error e
    | .ok _, .error e => .error e
  else if tool = "MODULO" then
    match getArg args 0, getArg args 1 with
    | .ok a, .ok b => modulo a b
    | .error e, _ => .error e
    | .ok _, .error e => .error e
  else if tool = "POWER" then
    match getArg args 0, getArg args 1 with
    | .ok a, .ok b => power a b
    | .error e, _ => .error e
    | .ok _, .error e => .error e
  else if tool = "ABS" then
    match getArg args 0 with
    | .ok a => .ok (absolute a)
    | .error e => .error e
  else .error (.unknownTool tool i)

/-- Reference step loop: exact values, no random source. -/
def execStepsSpec : List Step → Nat → Except ExecErr (List ℚ)
  | [], _ => .ok []
  | stp :: rest, i =>
    match execStepSpec i stp with
    | .error e => .error e
    | .ok out =>
      match execStepsSpec rest (i + 1) with
      | .error e => .error e
      | .ok outs => .ok (out :: outs)

/-- Reference plan execution, following the specification wording: same
final-index handling as `execute_plan`, with every unreliable step
replaced by its exact mathematical operation. -/
def execute_plan_spec (plan : Plan) : Except ExecErr ℚ :=
  let steps := plan.steps
  let final_idx : Int := plan.final_step_index.getD ((steps.length : Int) - 1)
  if (steps.length : Int) ≤ final_idx then .error .malformedPlan
  else
    match execStepsSpec steps 0 with
    | .error e => .error e
    | .ok results => pyIndex results final_idx

@[simp] lemma pyUpper_SUM : pyUpper "SUM" = "SUM" := rfl

@[simp] lemma pyUpper_PRODUCT : pyUpper "PRODUCT" = "PRODUCT" := rfl

lemma sum_verify_correct (d : Draw) (a b : ℚ) :
    (if verify_unreliable "SUM" a b (unreliable_sum d a b)
      then unreliable_sum d a b else a + b) = a + b := by
  unfold verify_unreliable
  by_cases h : unreliable_sum d a b = a + b <;> simp [h]

lemma product_verify_correct (d : Draw) (a b : ℚ) :
    (if verify_unreliable "PRODUCT" a b (unreliable_product d a b)
      then unreliable_product d a b else a * b) = a * b := by
  unfold verify_unreliable
  by_cases h : unreliable_product d a b = a * b <;> simp [h]

/-- Each step is independent of the random source after verification, and
consumes exactly `unreliableCost` draws. -/
lemma execStep_eq_spec (rng : Nat → Draw) (n i : Nat) (stp : Step) :
    execStep rng n i stp =
      (execStepSpec i stp).map (fun v => (v, n + unreliableCost stp)) := by
  unfold execStep execStepSpec unreliableCost
  by_cases hS : pyUpper stp.tool = "SUM"
  · simp only [hS, if_true, eq_self_iff_true, if_pos, Or.inl, true_or, if_neg]
    by_cases hlen : stp.args.length < 2
    · simp [hlen, Except.map]
    · simp only [hlen, if_neg, if_false]
      rcases h0 : getArg stp.args 0 with e | a <;>
        rcases h1 : getArg stp.args 1 with e' | b <;>
          simp [Except.map, sum_verify_correct]
  · by_cases hP : pyUpper stp.tool = "PRODUCT"
    · simp only [hS, hP, if_false, if_true, eq_self_iff_true, or_true, if_pos]
      by_cases hlen : stp.args.length < 2
      · simp [hlen, Except.map]
      · simp only [hlen, if_neg, if_false]
        rcases h0 : getArg stp.args 0 with e | a <;>
          rcases h1 : getArg stp.args 1 with e' | b <;>
            simp [Except.map, product_verify_correct]
    · simp only [hS, hP, if_false, false_or, or_self]
      by_cases hD : pyUpper stp.tool = "DELTA"
      · simp only [hD, if_true]
        rcases h0 : getArg stp.args 0 with e | a <;>
          rcases h1 : getArg stp.args 1 with e' | b <;> simp [Except.map]
      · by_cases hQ : pyUpper stp.tool = "QUOTIENT"
        · simp only [hD, hQ, if_false, if_true]
          rcases h0 : getArg stp.args 0 with e | a <;>
            rcases h1 : getArg stp.args 1 with e' | b <;> simp [Except.map]
          rcases hq : quotient a b with e | v <;> simp [Except.map]
        · by_cases hM : pyUpper stp.tool = "MODULO"
          · simp only [hD, hQ, hM, if_false, if_true]
            rcases h0 : getArg stp.args 0 with e | a <;>
              rcases h1 : getArg stp.args 1 with e' | b <;> simp [Except.map]
            rcases hm : modulo a b with e | v <;> simp [Except.map]
          · by_cases hW : pyUpper stp.tool = "POWER"
            · simp only [hD, hQ, hM, hW, if_false, if_true]
              rcases h0 : getArg stp.args 0 with e | a <;>
                rcases h1 : getArg stp.args 1 with e' | b <;> simp [Except.map]
              rcases hw : power a b with e | v <;> simp [Except.map]
            · by_cases hA : pyUpper stp.tool = "ABS"
              · simp only [hD, hQ, hM, hW, hA, if_false, if_true]
                rcases h0 : getArg stp.args 0 with e | a <;> simp [Except.map]
              · simp [hD, hQ, hM, hW, hA, Except.map]

/-- The step loop computes the exact reference values and consumes one
draw per unreliable step. -/
lemma execSteps_eq_spec (rng : Nat → Draw) :
    ∀ (l : List Step) (i n : Nat),
      execSteps rng l i n =
        (execStepsSpec l i).map (fun outs => (outs, n + unreliableCount l)) := by
  intro l
  induction l with
  | nil => intro i n; simp [execSteps, execStepsSpec, unreliableCount, Except.map]
  | cons stp rest ih =>
    intro i n
    simp only [execSteps, execStepsSpec, execStep_eq_spec rng n i stp]
    rcases hs : execStepSpec i stp with e | out
    · simp [Except.map]
    · simp only [Except.map, ih (i + 1)]
      rcases hr : execStepsSpec rest (i + 1) with e | outs
      · simp [Except.map]
      · simp only [Except.map, unreliableCount, List.map_cons, List.sum_cons]
        have : n + unreliableCost stp + (rest.map unreliableCost).sum =
            n + (unreliableCost stp + (rest.map unreliableCost).sum) := by ring
        simp [this, unreliableCount]

/-- Plan execution refines the exact reference execution for every
behavior of the random source. -/
lemma execute_plan_eq_spec (rng : Nat → Draw) (plan : Plan) :
    execute_plan rng plan = execute_plan_spec plan := by
  unfold execute_plan execute_plan_spec
  by_cases hidx :
      (plan.steps.length : Int) ≤
        plan.final_step_index.getD ((plan.steps.length : Int) - 1)
  · simp [hidx]
  · simp only [hidx, if_neg, if_false, execSteps_eq_spec rng plan.steps 0 0]
    rcases hs : execStepsSpec plan.steps 0 with e | outs <;> simp [Except.map]

/-- Adversarial random source used in witnesses: every unreliable call
fails and returns the decoy 17. -/
def rngAdv : Nat → Draw := fun _ => Draw.mk true 17

/-- Benign random source used in witnesses: no unreliable call fails. -/
def rngOk : Nat → Draw := fun _ => Draw.mk false 0

/-- Witness plan for the masking claim: a SUM step and a PRODUCT step. -/
def planMask : Plan :=
  Plan.mk [Step.mk "SUM" [3, 5], Step.mk "PRODUCT" [2, 4]] (some 1)

/-- Claim C1: for every syntactically valid plan containing SUM or PRODUCT
steps and every behavior of the random source, `execute_plan` returns the
exact mathematical result of every step (`a + b` for SUM, `a * b` for
PRODUCT): the verify-and-correct path masks every simulated failure, the
unreliable primitive is invoked exactly once per SUM or PRODUCT step, and
mismatches are corrected analytically. Stated as: execution equals the
exact reference execution for every plan and every random source, and a
successful run consumes exactly one draw per SUM or PRODUCT step. -/
theorem sum_product_masking_complete (rng : Nat → Draw) (plan : Plan) :
    execute_plan rng plan = execute_plan_spec plan ∧
    (∀ (outs : List ℚ) (n : Nat),
      execSteps rng plan.steps 0 0 = .ok (outs, n) →
      n = unreliableCount plan.steps) := by
  refine ⟨execute_plan_eq_spec rng plan, ?_⟩
  intro outs n h
  rw [execSteps_eq_spec rng plan.steps 0 0] at h
  rcases hs : execStepsSpec plan.steps 0 with e | outs'
  · rw [hs] at h; simp [Except.map] at h
  · rw [hs] at h
    simp only [Except.map, Except.ok.injEq, Prod.mk.injEq] at h
    omega

/-- Witness for C1, at a plan with one SUM and one PRODUCT step and the
adversarial random source that fails on every draw: the final answer is
exact and two draws are consumed. -/
theorem sum_product_masking_complete_witness :
    execute_plan rngAdv planMask = execute_plan_spec planMask ∧
    execute_plan rngAdv planMask = .ok 8 ∧
    2 = unreliableCount planMask.steps := by
  refine ⟨(sum_product_masking_complete rngAdv planMask).1, ?_, ?_⟩
  · norm_num [execute_plan, execSteps, execStep, getArg, pyIndex, planMask,
      rngAdv, unreliable_sum, unreliable_product, verify_unreliable]
    rfl
  · exact (sum_product_masking_complete rngAdv planMask).2 [8, 8] 2 (by
      norm_num [execSteps, execStep, getArg, planMask, rngAdv,
        unreliable_sum, unreliable_product, verify_unreliable]
      rfl)

@[simp] lemma pyUpper_DELTA : pyUpper "DELTA" = "DELTA" := rfl

@[simp] lemma pyUpper_QUOTIENT : pyUpper "QUOTIENT" = "QUOTIENT" := rfl

@[simp] lemma pyUpper_MODULO : pyUpper "MODULO" = "MODULO" := rfl

@[simp] lemma pyUpper_POWER : pyUpper "POWER" = "POWER" := rfl

@[simp] lemma pyUpper_ABS : pyUpper "ABS" = "ABS" := rfl

/-- A one-step plan with no `final_step_index` field evaluates to the
value of its only step. -/
lemma execute_plan_single (rng : Nat → Draw) (stp : Step) :
    execute_plan rng (Plan.mk [stp] none) = execStepSpec 0 stp := by
  rw [execute_plan_eq_spec]
  unfold execute_plan_spec execStepsSpec execStepsSpec
  rcases h : execStepSpec 0 stp with e | v <;> simp [h, pyIndex]

/-- The reference step loop returns one value per step. -/
lemma execStepsSpec_length :
    ∀ (l : List Step) (i : Nat) (outs : List ℚ),
      execStepsSpec l i = .ok outs → outs.length = l.length := by
  intro l
  induction l with
  | nil => intro i outs h; simp [execStepsSpec] at h; simp [← h]
  | cons stp rest ih =>
    intro i outs h
    unfold execStepsSpec at h
    rcases h1 : execStepSpec i stp with e | out <;> rw [h1] at h
    · simp at h
    · rcases h2 : execStepsSpec rest (i + 1) with e | outs' <;> rw [h2] at h
      · simp at h
      · simp only [Except.ok.injEq] at h
        subst h
        simp [ih (i + 1) outs' h2]

/-- The step loop returns one value per step. -/
lemma execSteps_ok_length (rng : Nat → Draw) (l : List Step) (i n : Nat)
    (outs : List ℚ) (m : Nat) (h : execSteps rng l i n = .ok (outs, m)) :
    outs.length = l.length := by
  rw [execSteps_eq_spec] at h
  rcases hs : execStepsSpec l i with e | outs' <;> rw [hs] at h
  · simp [Except.map] at h
  · simp only [Except.map, Except.ok.injEq, Prod.mk.injEq] at h
    rw [← h.1]
    exact execStepsSpec_length l i outs' hs

/-- The step loop and its reference agree on success. -/
lemma execSteps_ok_spec (rng : Nat → Draw) (l : List Step) (outs : List ℚ)
    (m : Nat) (h : execSteps rng l 0 0 = .ok (outs, m)) :
    execStepsSpec l 0 = .ok outs := by
  rw [execSteps_eq_spec] at h
  rcases hs : execStepsSpec l 0 with e | outs' <;> rw [hs] at h
  · simp [Except.map] at h
  · simp only [Except.map, Except.ok.injEq, Prod.mk.injEq] at h
    rw [h.1]

/-- Recognizer for the ArityMismatch failure class. -/
def isArityMismatch : Except ExecErr ℚ → Bool
  | .error (.arityMismatch _) => true
  | _ => false

/-- Claim C3 counterexample: the claim predicts ArityMismatch for every
step with the wrong argument count, but a DELTA step with one argument
fails with a plain IndexError from the unchecked subscript `args[1]`,
and a SUM step with three arguments does not fail at all (the check is
only `len(args) < 2`, extra arguments are ignored). -/
theorem arity_mismatch_claim_cex :
    isArityMismatch
        (execute_plan rngOk (Plan.mk [Step.mk "DELTA" [1]] none)) = false ∧
    execute_plan rngOk (Plan.mk [Step.mk "DELTA" [1]] none) =
      .error .indexError ∧
    execute_plan rngOk (Plan.mk [Step.mk "SUM" [1, 2, 3]] none) = .ok 3 := by
  refine ⟨by decide, by decide, ?_⟩
  norm_num [execute_plan, execSteps, execStep, getArg, pyIndex, rngOk,
    unreliable_sum, verify_unreliable]

/-- Claim C3 amended: ArityMismatch is raised only by SUM and PRODUCT
steps with fewer than two arguments; a two-argument reliable primitive
given fewer than two arguments fails with a plain IndexError instead, an
ABS step with no arguments likewise, and surplus arguments never fail
(they are ignored). -/
theorem arity_checks_amended (rng : Nat → Draw) (args : List ℚ) :
    (args.length < 2 →
      execute_plan rng (Plan.mk [Step.mk "SUM" args] none) =
        .error (.arityMismatch "SUM needs 2 args") ∧
      execute_plan rng (Plan.mk [Step.mk "PRODUCT" args] none) =
        .error (.arityMismatch "PRODUCT needs 2 args") ∧
      execute_plan rng (Plan.mk [Step.mk "DELTA" args] none) =
        .error .indexError ∧
      execute_plan rng (Plan.mk [Step.mk "QUOTIENT" args] none) =
        .error .indexError ∧
      execute_plan rng (Plan.mk [Step.mk "MODULO" args] none) =
        .error .indexError ∧
      execute_plan rng (Plan.mk [Step.mk "POWER" args] none) =
        .error .indexError) ∧
    (args = [] →
      execute_plan rng (Plan.mk [Step.mk "ABS" args] none) =
        .error .indexError) ∧
    (∀ (a b : ℚ) (rest : List ℚ),
      execute_plan rng (Plan.mk [Step.mk "SUM" (a :: b :: rest)] none) =
        .ok (a + b) ∧
      execute_plan rng (Plan.mk [Step.mk "ABS" (a :: rest)] none) =
        .ok |a|) := by
  refine ⟨?_, ?_, ?_⟩
  · intro hlen
    rcases args with _ | ⟨a, _ | ⟨b, rest⟩⟩
    · refine ⟨?_, ?_, ?_, ?_, ?_, ?_⟩ <;>
        simp [execute_plan_single, execStepSpec, getArg]
    · refine ⟨?_, ?_, ?_, ?_, ?_, ?_⟩ <;>
        simp [execute_plan_single, execStepSpec, getArg]
    · simp only [List.length_cons] at hlen
      omega
  · intro h
    subst h
    simp [execute_plan_single, execStepSpec, getArg]
  · intro a b rest
    constructor <;> simp [execute_plan_single, execStepSpec, getArg, absolute]

/-- Witness for the amended C3, at a PRODUCT step with one argument and a
QUOTIENT step with one argument. -/
theorem arity_checks_amended_witness :
    execute_plan rngOk (Plan.mk [Step.mk "PRODUCT" [7]] none) =
      .error (.arityMismatch "PRODUCT needs 2 args") ∧
    execute_plan rngOk (Plan.mk [Step.mk "QUOTIENT" [7]] none) =
      .error .indexError ∧
    execute_plan rngOk (Plan.mk [Step.mk "ABS" [3, 4]] none) = .ok |(3 : ℚ)| :=
  ⟨((arity_checks_amended rngOk [7]).1 (by decide)).2.1,
   ((arity_checks_amended rngOk [7]).1 (by decide)).2.2.2.1,
   ((arity_checks_amended rngOk [3]).2.2 3 0 [4]).2⟩

/-- Claim C4 counterexample: the claim predicts MalformedPlan for every
out-of-range final-step index including negative ones, but the code only
checks `final_idx >= len(steps)`: with two steps and final index -1 the
plan executes and returns the last value. -/
theorem final_index_negative_cex :
    execute_plan rngOk
        (Plan.mk [Step.mk "ABS" [3], Step.mk "ABS" [4]] (some (-1))) =
      .ok 4 ∧
    execute_plan rngOk
        (Plan.mk [Step.mk "ABS" [3], Step.mk "ABS" [4]] (some (-1))) ≠
      .error ExecErr.malformedPlan := by
  constructor <;> decide

/-- Claim C4 amended: `execute_plan` fails with MalformedPlan exactly when
the final-step index is at least the number of steps (in particular index
5 with 2 steps); a negative final index is not rejected: -1 selects the
last step value Python-style. -/
theorem final_index_check_amended :
    (∀ (rng : Nat → Draw) (steps : List Step) (idx : Int),
      (steps.length : Int) ≤ idx →
      execute_plan rng (Plan.mk steps (some idx)) = .error .malformedPlan) ∧
    (∀ (rng : Nat → Draw) (steps : List Step) (outs : List ℚ) (n : Nat)
        (v : ℚ),
      execSteps rng steps 0 0 = .ok (outs, n) → outs.getLast? = some v →
      execute_plan rng (Plan.mk steps (some (-1))) = .ok v) := by
  constructor
  · intro rng steps idx h
    unfold execute_plan
    simp [h]
  · intro rng steps outs n v hex hlast
    have hlen : outs.length = steps.length := execSteps_ok_length rng steps 0 0 outs n hex
    have hne : outs ≠ [] := by
      intro h; rw [h] at hlast; simp at hlast
    have hpos : 0 < outs.length := List.length_pos.mpr hne
    unfold execute_plan
    have hcond : ¬((steps.length : Int) ≤ (-1 : Int)) := by
      have : (0 : Int) ≤ (steps.length : Int) := Int.natCast_nonneg _
      omega
    simp only [Option.getD, hcond, if_neg, if_false, hex]
    unfold pyIndex
    have hj : (-1 : Int) + (outs.length : Int) = (outs.length : Int) - 1 := by ring
    have hjn : ¬((-1 : Int) + (outs.length : Int) < 0) := by omega
    simp only [hlen.symm, hj]
    have htn : ((outs.length : Int) - 1).toNat = outs.length - 1 := by omega
    have hget : outs[outs.length - 1]? = some v := by
      rw [← List.getLast?_eq_getElem?]
      exact hlast
    simp [hjn, htn, hget, hne]

/-- Witness for the amended C4: final index 5 with 2 steps fails with
MalformedPlan, and final index -1 with 2 steps returns the second value. -/
theorem final_index_check_amended_witness :
    execute_plan rngOk
        (Plan.mk [Step.mk "ABS" [3], Step.mk "ABS" [4]] (some 5)) =
      .error .malformedPlan ∧
    execute_plan rngOk
        (Plan.mk [Step.mk "ABS" [3], Step.mk "ABS" [4]] (some (-1))) =
      .ok 4 :=
  ⟨final_index_check_amended.1 rngOk [Step.mk "ABS" [3], Step.mk "ABS" [4]] 5
      (by decide),
   final_index_check_amended.2 rngOk [Step.mk "ABS" [3], Step.mk "ABS" [4]]
      [3, 4] 0 4 (by decide) (by decide)⟩

/-- Claim C9: a plan JSON object with a non-empty steps array and no
`final_step_index` field does not fail on the missing field: the index
defaults to the last step and the last step's value is returned. -/
theorem missing_final_index_defaults (rng : Nat → Draw) (steps : List Step)
    (outs : List ℚ) (n : Nat) (v : ℚ) (hne : steps ≠ [])
    (hex : execSteps rng steps 0 0 = .ok (outs, n))
    (hlast : outs.getLast? = some v) :
    execute_plan rng (Plan.mk steps none) = .ok v := by
  have hlen : outs.length = steps.length := execSteps_ok_length rng steps 0 0 outs n hex
  have hpos : 0 < steps.length := List.length_pos.mpr hne
  unfold execute_plan
  have hcond : ¬((steps.length : Int) ≤ (steps.length : Int) - 1) := by omega
  simp only [Option.getD, hcond, if_neg, if_false, hex]
  unfold pyIndex
  have hjn : ¬((steps.length : Int) - 1 < 0) := by omega
  have htn : ((steps.length : Int) - 1).toNat = outs.length - 1 := by omega
  have hget : outs[outs.length - 1]? = some v := by
    rw [← List.getLast?_eq_getElem?]
    exact hlast
  simp [hjn, htn, hget]

/-- Witness for C9: a two-step plan with no final index returns the second
step's value. -/
theorem missing_final_index_defaults_witness :
    execute_plan rngOk
        (Plan.mk [Step.mk "ABS" [-6], Step.mk "DELTA" [3, 10]] none) =
      .ok 7 := by
  refine missing_final_index_defaults rngOk
    [Step.mk "ABS" [-6], Step.mk "DELTA" [3, 10]] [6, 7] 0 7 (by decide) ?_
    (by decide)
  norm_num [execSteps, execStep, getArg, rngOk, delta, absolute]
  rfl

/-- Claim C10: a POWER step with base 0 and a negative exponent raises the
ZeroDivisionError of Python float `**`, even though POWER is documented as
reliable with no division-related failure. -/
theorem power_zero_negative_raises (rng : Nat → Draw) (b : ℚ) (hb : b < 0) :
    execute_plan rng (Plan.mk [Step.mk "POWER" [0, b]] none) =
      .error (.divisionByZero "0.0 cannot be raised to a negative power") := by
  rw [execute_plan_single]
  simp [execStepSpec, getArg, power, hb]

/-- Witness for C10 at exponent -1. -/
theorem power_zero_negative_raises_witness :
    execute_plan rngOk (Plan.mk [Step.mk "POWER" [0, -1]] none) =
      .error (.divisionByZero "0.0 cannot be raised to a negative power") :=
  power_zero_negative_raises rngOk (-1) (by norm_num)

/-- The reference step loop splits over list append. -/
lemma execStepsSpec_append :
    ∀ (l1 l2 : List Step) (i : Nat),
      execStepsSpec (l1 ++ l2) i =
        match execStepsSpec l1 i with
        | .error e => .error e
        | .ok outs1 =>
          match execStepsSpec l2 (i + l1.length) with
          | .error e => .error e
          | .ok outs2 => .ok (outs1 ++ outs2) := by
  intro l1
  induction l1 with
  | nil =>
    intro l2 i
    simp only [List.nil_append, List.length_nil, Nat.add_zero]
    rcases h : execStepsSpec l2 i with e | outs <;> simp [execStepsSpec]
  | cons stp rest ih =>
    intro l2 i
    have hL : execStepsSpec ((stp :: rest) ++ l2) i =
        match execStepSpec i stp with
        | .error e => .error e
        | .ok out =>
          match execStepsSpec (rest ++ l2) (i + 1) with
          | .error e => .error e
          | .ok outs => .ok (out :: outs) := rfl
    have hR : execStepsSpec (stp :: rest) i =
        match execStepSpec i stp with
        | .error e => .error e
        | .ok out =>
          match execStepsSpec rest (i + 1) with
          | .error e => .error e
          | .ok outs => .ok (out :: outs) := rfl
    rw [hL, hR, ih l2 (i + 1)]
    rcases h1 : execStepSpec i stp with e | out <;> simp only [h1]
    rcases h2 : execStepsSpec rest (i + 1) with e | outs1 <;> simp only [h2]
    have hn : i + 1 + rest.length = i + (stp :: rest).length := by
      simp only [List.length_cons]
      omega
    rw [hn]
    rcases h3 : execStepsSpec l2 (i + (stp :: rest).length) with e | outs2 <;>
      simp

/-- Recognizer for the DivisionByZero failure class. -/
def isDivisionByZero : Except ExecErr ℚ → Bool
  | .error (.divisionByZero _) => true
  | _ => false

/-- A QUOTIENT or MODULO step whose second argument is 0 fails with
ZeroDivisionError. -/
lemma execStepSpec_divzero (i : Nat) (stp : Step)
    (htool : pyUpper stp.tool = "QUOTIENT" ∨ pyUpper stp.tool = "MODULO")
    (harg : stp.args.get? 1 = some 0) :
    ∃ m, execStepSpec i stp = .error (.divisionByZero m) := by
  have hlt : 1 < stp.args.length := by
    by_contra h
    rw [List.get?_eq_none.mpr (by omega)] at harg
    exact Option.noConfusion harg
  rcases h0 : stp.args.get? 0 with _ | a
  · rw [List.get?_eq_none] at h0
    omega
  · rw [List.get?_eq_getElem?] at h0
    rw [List.get?_eq_getElem?] at harg
    rcases htool with h | h
    · refine ⟨"Division by zero.", ?_⟩
      unfold execStepSpec
      rw [h]
      simp [getArg, h0, harg, quotient]
    · refine ⟨"Modulo by zero.", ?_⟩
      unfold execStepSpec
      rw [h]
      simp [getArg, h0, harg, modulo]

/-- Claim C8: a plan containing a QUOTIENT or MODULO step whose second
argument is 0 — at a position the step loop reaches, in a plan whose
final index passes the range check — fails with DivisionByZero and
returns no answer. -/
theorem quotient_modulo_by_zero_fails (rng : Nat → Draw) (plan : Plan)
    (k : Nat) (stp : Step)
    (hk : plan.steps.get? k = some stp)
    (htool : pyUpper stp.tool = "QUOTIENT" ∨ pyUpper stp.tool = "MODULO")
    (harg : stp.args.get? 1 = some 0)
    (hidx : plan.final_step_index.getD ((plan.steps.length : Int) - 1) <
      (plan.steps.length : Int))
    (hpre : ∃ outs n, execSteps rng (plan.steps.take k) 0 0 = .ok (outs, n)) :
    isDivisionByZero (execute_plan rng plan) = true := by
  rcases hpre with ⟨outs, n, hpre⟩
  have hpre' : execStepsSpec (plan.steps.take k) 0 = .ok outs :=
    execSteps_ok_spec rng (plan.steps.take k) outs n hpre
  have hklt : k < plan.steps.length := (List.get?_eq_some.mp hk).1
  have hsplit : plan.steps = plan.steps.take k ++ stp :: plan.steps.drop (k + 1) := by
    conv_lhs => rw [← List.take_append_drop k plan.steps]
    have : plan.steps.drop k = stp :: plan.steps.drop (k + 1) := by
      rw [List.drop_eq_getElem_cons hklt]
      have := (List.get?_eq_some.mp hk).2
      simp [List.get_eq_getElem] at this
      simp [this]
    rw [this]
  rcases execStepSpec_divzero (0 + (plan.steps.take k).length) stp htool harg
    with ⟨m, hdz⟩
  have hall : execStepsSpec plan.steps 0 = .error (.divisionByZero m) := by
    conv_lhs => rw [hsplit]
    rw [execStepsSpec_append]
    rw [hpre']
    unfold execStepsSpec
    rw [hdz]
  rw [execute_plan_eq_spec]
  unfold execute_plan_spec
  have hcond : ¬((plan.steps.length : Int) ≤
      plan.final_step_index.getD ((plan.steps.length : Int) - 1)) := by omega
  simp [hcond, hall, isDivisionByZero]

/-- Witness for C8: the plan with the single step QUOTIENT(5, 0). -/
theorem quotient_modulo_by_zero_fails_witness :
    isDivisionByZero
      (execute_plan rngOk (Plan.mk [Step.mk "QUOTIENT" [5, 0]] none)) = true :=
  quotient_modulo_by_zero_fails rngOk (Plan.mk [Step.mk "QUOTIENT" [5, 0]] none)
    0 (Step.mk "QUOTIENT" [5, 0]) (by decide) (Or.inl (by decide)) (by decide)
    (by decide) ⟨[], 0, by decide⟩

/-- Failure of the reasoning oracle (an exception from the openai call
inside `conversation_with_planner`). -/
structure OracleErr where
  msg : String
deriving DecidableEq, Repr

/-- The outcome dictionary built by `ask_system`. The Python dictionaries
have an `answer` key only on success and an `error` key only on failure;
optional fields model key presence. -/
structure Outcome where
  question : String
  plan : String
  answer : Option ℚ
  error : Option String
  status : String
  via : String
deriving DecidableEq, Repr

/-- How a call to `ask_system` ends: either it returns an outcome
dictionary, or an exception propagates out of it uncaught. -/
inductive AskResult where
  | returned (o : Outcome)
  | raised (e : OracleErr)
deriving DecidableEq, Repr

/-- The module-level mutable state: the `virtual_tools` cache (signature
to stored plan text; the creation-context dictionary reduces to the plan
text) and the `success_count` table (missing key means 0). -/
structure SysState where
  virtual_tools : String → Option String
  success_count : String → Nat

/-- Model of `store_virtual_tool`: store the plan text under the signature. -/
def store_virtual_tool (st : SysState) (signature plan_text : String) :
    SysState :=
  SysState.mk
    (fun s => if s = signature then some plan_text else st.virtual_tools s)
    st.success_count

/-- Assignment `success_count[sig] = n`. -/
def setCount (st : SysState) (signature : String) (n : Nat) : SysState :=
  SysState.mk st.virtual_tools
    (fun s => if s = signature then n else st.success_count s)

/-- Model of `execute_plan` on plan text: `json.loads` plus field extraction are
modelled by an abstract `parse` collaborator (the claims hold for every
parser), followed by execution of the parsed plan. -/
def execute_plan_text (parse : String → Except ExecErr Plan)
    (rng : Nat → Draw) (plan_text : String) : Except ExecErr ℚ :=
  match parse plan_text with
  | .error e => .error e
  | .ok plan => execute_plan rng plan

/-- Model of `ask_system`. The discovery conversation is modelled by the abstract
collaborator `discover`, which either yields the plan text the oracle
emitted or fails like the openai call does. In the source the call to
`conversation_with_planner` happens before the `try` block, so a
discovery failure propagates out of `ask_system` uncaught (`.raised`);
execution failures are caught and returned as a fail dictionary. -/
def ask_system (discover : String → Except OracleErr String)
    (parse : String → Except ExecErr Plan) (rng : Nat → Draw)
    (st : SysState) (q : String) : AskResult × SysState :=
  let sig := get_question_signature q
  match st.virtual_tools sig with
  | some plan_text =>
    match execute_plan_text parse rng plan_text with
    | .ok val =>
      (.returned (Outcome.mk q plan_text (some val) none "success"
        "virtual_tool"), st)
    | .error e =>
      (.returned (Outcome.mk q plan_text none (some e.toMessage) "fail"
        "virtual_tool"), st)
  | none =>
    match discover q with
    | .error e => (.raised e, st)
    | .ok plan_text =>
      match execute_plan_text parse rng plan_text with
      | .ok val =>
        let new_count := st.success_count sig + 1
        let st1 := setCount st sig new_count
        let st2 := if new_count = 2 then store_virtual_tool st1 sig plan_text
          else st1
        (.returned (Outcome.mk q plan_text (some val) none "success"
          "fresh_llm"), st2)
      | .error e =>
        (.returned (Outcome.mk q plan_text none (some e.toMessage) "fail"
          "fresh_llm"), st)

/-- Whether an `ask_system` call returned a success dictionary. -/
def AskResult.isSuccess : AskResult → Bool
  | .returned o => decide (o.status = "success")
  | .raised _ => false

/-- Whether an `ask_system` call ended in an uncaught exception. -/
def AskResult.isRaised : AskResult → Bool
  | .returned _ => false
  | .raised _ => true

/-- The plan text carried by a returned outcome. -/
def AskResult.planText : AskResult → String
  | .returned o => o.plan
  | .raised _ => ""

/-- The provenance tag carried by a returned outcome. -/
def AskResult.viaTag : AskResult → String
  | .returned o => o.via
  | .raised _ => ""

/-- Whether an oracle call produced plan text. -/
def oracleOk : Except OracleErr String → Bool
  | .ok _ => true
  | .error _ => false

/-- A fresh (cache-miss) successful execution: the discovery collaborator
produced plan text, the plan executed, the counter for the signature was
incremented, and the plan text was stored exactly when the new counter
value is 2. -/
lemma ask_fresh_success (d : String → Except OracleErr String)
    (p : String → Except ExecErr Plan) (r : Nat → Draw) (st : SysState)
    (q : String)
    (hvt : st.virtual_tools (get_question_signature q) = none)
    (hs : (ask_system d p r st q).1.isSuccess = true) :
    ∃ plan_text val, d q = .ok plan_text ∧
      execute_plan_text p r plan_text = .ok val ∧
      (ask_system d p r st q).1.planText = plan_text ∧
      (ask_system d p r st q).2 =
        (if st.success_count (get_question_signature q) + 1 = 2 then
          store_virtual_tool
            (setCount st (get_question_signature q)
              (st.success_count (get_question_signature q) + 1))
            (get_question_signature q) plan_text
        else
          setCount st (get_question_signature q)
            (st.success_count (get_question_signature q) + 1)) := by
  simp only [ask_system, hvt] at hs ⊢
  rcases hd : d q with e | plan_text <;> simp only [hd] at hs ⊢
  · simp [AskResult.isSuccess] at hs
  · rcases he : execute_plan_text p r plan_text with e | val <;>
      simp only [he] at hs ⊢
    · simp [AskResult.isSuccess] at hs
    · exact ⟨plan_text, val, rfl, he, rfl, rfl⟩

/-- Fact: `ask_system` never removes or replaces an existing cache entry. -/
lemma ask_preserves_cache (d : String → Except OracleErr String)
    (p : String → Except ExecErr Plan) (r : Nat → Draw) (st : SysState)
    (q s text : String) (hvt : st.virtual_tools s = some text) :
    (ask_system d p r st q).2.virtual_tools s = some text := by
  simp only [ask_system]
  rcases h1 : st.virtual_tools (get_question_signature q) with _ | pt <;>
    simp only [h1]
  · rcases hd : d q with e | plan_text <;> simp only [hd]
    · exact hvt
    · rcases he : execute_plan_text p r plan_text with e | val <;>
        simp only [he]
      · exact hvt
      · have hne : s ≠ get_question_signature q := by
          intro h
          rw [h, h1] at hvt
          exact Option.noConfusion hvt
        by_cases hc : st.success_count (get_question_signature q) + 1 = 2 <;>
          simp [hc, store_virtual_tool, setCount, hne, hvt]
  · rcases he : execute_plan_text p r pt with e | val <;> simp only [he] <;>
      exact hvt

/-- Claim C2: for a signature with no prior cache entry and no prior
successes, two consecutive successful fresh executions leave a cached
entry holding the plan text of the second success; a single success
leaves no entry; and an existing entry is never overwritten by any later
operation. -/
theorem cache_promotion_law (d1 d2 : String → Except OracleErr String)
    (p1 p2 : String → Except ExecErr Plan) (r1 r2 : Nat → Draw)
    (st : SysState) (q1 q2 : String)
    (hsig : get_question_signature q2 = get_question_signature q1)
    (hvt : st.virtual_tools (get_question_signature q1) = none)
    (hc : st.success_count (get_question_signature q1) = 0)
    (h1 : (ask_system d1 p1 r1 st q1).1.isSuccess = true)
    (h2 : (ask_system d2 p2 r2 (ask_system d1 p1 r1 st q1).2 q2).1.isSuccess =
      true) :
    (ask_system d1 p1 r1 st q1).2.virtual_tools
        (get_question_signature q1) = none ∧
    (ask_system d2 p2 r2 (ask_system d1 p1 r1 st q1).2 q2).2.virtual_tools
        (get_question_signature q1) =
      some ((ask_system d2 p2 r2 (ask_system d1 p1 r1 st q1).2 q2).1.planText) ∧
    (∀ (d : String → Except OracleErr String)
        (p : String → Except ExecErr Plan) (r : Nat → Draw) (st' : SysState)
        (q s text : String),
      st'.virtual_tools s = some text →
      (ask_system d p r st' q).2.virtual_tools s = some text) := by
  rcases ask_fresh_success d1 p1 r1 st q1 hvt h1 with
    ⟨pt1, v1, hd1, he1, hpt1, hst1⟩
  rw [hc] at hst1
  simp only [show (0 : Nat) + 1 = 1 from rfl, if_neg (by omega : ¬(1 = 2))]
    at hst1
  have hvt1 : (ask_system d1 p1 r1 st q1).2.virtual_tools
      (get_question_signature q1) = none := by
    rw [hst1]
    simp [setCount, hvt]
  refine ⟨hvt1, ?_, ask_preserves_cache⟩
  have hvt1' : (ask_system d1 p1 r1 st q1).2.virtual_tools
      (get_question_signature q2) = none := by rw [hsig]; exact hvt1
  rcases ask_fresh_success d2 p2 r2 (ask_system d1 p1 r1 st q1).2 q2 hvt1' h2
    with ⟨pt2, v2, hd2, he2, hpt2, hst2⟩
  have hcount1 : (ask_system d1 p1 r1 st q1).2.success_count
      (get_question_signature q2) = 1 := by
    rw [hsig, hst1]
    simp [setCount]
  rw [hcount1] at hst2
  simp only [show (1 : Nat) + 1 = 2 from rfl, if_pos rfl] at hst2
  rw [hst2, hpt2]
  simp [store_virtual_tool, hsig]

/-- Collaborators used by the state-layer witnesses: two oracle behaviors
returning distinct plan texts, a failing oracle, a parser mapping any
text to the one-step plan ABS(3), a failing parser, and concrete start
states. -/
def d1W : String → Except OracleErr String := fun _ => .ok "P1"

def d2W : String → Except OracleErr String := fun _ => .ok "P2"

def dFail : String → Except OracleErr String :=
  fun _ => .error (OracleErr.mk "rate limit")

def parseW : String → Except ExecErr Plan :=
  fun _ => .ok (Plan.mk [Step.mk "ABS" [3]] none)

def parseBad : String → Except ExecErr Plan :=
  fun _ => .error (.planParse "Expecting value")

def st0 : SysState := SysState.mk (fun _ => none) (fun _ => 0)

def stC : SysState :=
  SysState.mk (fun s => if s = "s" then some "T" else none) (fun _ => 0)

/-- Witness for C2: two fresh successes on the same question, starting
from the empty state; after the first there is no entry, after the second
the entry holds the plan text of the second success; and a later call on
a cached state leaves the entry intact. -/
theorem cache_promotion_law_witness :
    (ask_system d1W parseW rngOk st0 "Q").2.virtual_tools
        (get_question_signature "Q") = none ∧
    (ask_system d2W parseW rngOk (ask_system d1W parseW rngOk st0 "Q").2
        "Q").2.virtual_tools (get_question_signature "Q") =
      some ((ask_system d2W parseW rngOk (ask_system d1W parseW rngOk st0
        "Q").2 "Q").1.planText) ∧
    (ask_system d1W parseW rngOk stC "x").2.virtual_tools "s" = some "T" := by
  have h := cache_promotion_law d1W d2W parseW parseW rngOk rngOk st0 "Q" "Q"
    rfl rfl rfl (by decide) (by decide)
  exact ⟨h.1, h.2.1, h.2.2 d1W parseW rngOk stC "x" "s" "T" (by decide)⟩

/-- Claim C6: on a cache hit the discovery collaborator is never
consulted (the result is the same for every oracle behavior), the outcome
carries provenance virtual_tool whether execution succeeds or fails, no
exception escapes, and the state — in particular the cache entry — is
left unchanged even on failure. -/
theorem cache_hit_no_discovery (d d' : String → Except OracleErr String)
    (p : String → Except ExecErr Plan) (r : Nat → Draw) (st : SysState)
    (q text : String)
    (hvt : st.virtual_tools (get_question_signature q) = some text) :
    ask_system d p r st q = ask_system d' p r st q ∧
    (ask_system d p r st q).1.viaTag = "virtual_tool" ∧
    (ask_system d p r st q).1.isRaised = false ∧
    (ask_system d p r st q).2 = st := by
  simp only [ask_system, hvt]
  rcases he : execute_plan_text p r text with e | v <;> simp only [he] <;>
    simp [AskResult.viaTag, AskResult.isRaised]

/-- Witness for C6, at a cached state whose stored plan fails to parse:
the outcome is a virtual_tool failure, oracle behavior is irrelevant, and
the entry survives. -/
theorem cache_hit_no_discovery_witness :
    ask_system d1W parseBad rngOk stC "s" = ask_system dFail parseBad rngOk
      stC "s" ∧
    (ask_system d1W parseBad rngOk stC "s").1.viaTag = "virtual_tool" ∧
    (ask_system d1W parseBad rngOk stC "s").1.isRaised = false ∧
    (ask_system d1W parseBad rngOk stC "s").2 = stC :=
  cache_hit_no_discovery d1W dFail parseBad rngOk stC "s" "T" (by decide)

/-- Claim C5 counterexample: the claim says `ask_system` never lets an
exception escape, but on a cache miss the call to
`conversation_with_planner` happens before the `try` block, so an oracle
failure propagates out of `ask_system` uncaught. -/
theorem ask_system_uncaught_cex :
    (ask_system dFail parseW rngOk st0 "Q").1.isRaised = true := by decide

/-- Claim C5 amended: whenever the request hits the cache or the
discovery collaborator yields plan text, `ask_system` returns a
structured outcome with an explicit success/fail status carrying the
request, the plan text and, on failure, an error message; only an oracle
failure on a cache miss escapes uncaught. -/
theorem ask_system_outcome_amended (d : String → Except OracleErr String)
    (p : String → Except ExecErr Plan) (r : Nat → Draw) (st : SysState)
    (q : String)
    (h : (st.virtual_tools (get_question_signature q)).isSome = true ∨
      oracleOk (d q) = true) :
    ∃ o, (ask_system d p r st q).1 = .returned o ∧
      o.question = q ∧
      (o.status = "success" ∨ o.status = "fail") ∧
      (o.status = "fail" → o.error.isSome = true) ∧
      (o.status = "success" → o.answer.isSome = true) := by
  simp only [ask_system]
  rcases hvt : st.virtual_tools (get_question_signature q) with _ | text <;>
    simp only [hvt]
  · rcases hd : d q with e | pt <;> simp only [hd]
    · rcases h with h | h
      · rw [hvt] at h
        simp at h
      · rw [hd] at h
        simp [oracleOk] at h
    · rcases he : execute_plan_text p r pt with e | v <;> simp only [he]
      · exact ⟨_, rfl, rfl, Or.inr rfl, fun _ => rfl, fun hs => by
          simp at hs⟩
      · exact ⟨_, rfl, rfl, Or.inl rfl, fun hs => by simp at hs,
          fun _ => rfl⟩
  · rcases he : execute_plan_text p r text with e | v <;> simp only [he]
    · exact ⟨_, rfl, rfl, Or.inr rfl, fun _ => rfl, fun hs => by
        simp at hs⟩
    · exact ⟨_, rfl, rfl, Or.inl rfl, fun hs => by simp at hs,
        fun _ => rfl⟩

/-- Witness for the amended C5, at a cache miss whose discovered plan
fails to parse: a fail outcome is returned as data. -/
theorem ask_system_outcome_amended_witness :
    ∃ o, (ask_system d1W parseBad rngOk st0 "Q").1 = .returned o ∧
      o.question = "Q" ∧
      (o.status = "success" ∨ o.status = "fail") ∧
      (o.status = "fail" → o.error.isSome = true) ∧
      (o.status = "success" → o.answer.isSome = true) :=
  ask_system_outcome_amended d1W parseBad rngOk st0 "Q" (Or.inr (by decide))

/-- Evaluation of `Char.ofNat` at a scalar value below the surrogate range keeps the
code point. -/
lemma toNat_charOfNat_of_lt (n : Nat) (h : n < 55296) :
    (Char.ofNat n).toNat = n := by
  unfold Char.ofNat
  rw [dif_pos (Or.inl h)]
  rfl

/-- Lowercasing does not create or destroy whitespace. -/
lemma pyIsSpace_pyLowerChar (c : Char) :
    pyIsSpace (pyLowerChar c) = pyIsSpace c := by
  unfold pyLowerChar
  by_cases h : 65 ≤ c.toNat ∧ c.toNat ≤ 90
  · rw [if_pos h]
    unfold pyIsSpace
    rw [toNat_charOfNat_of_lt (c.toNat + 32) (by omega)]
    rw [decide_eq_decide]
    omega
  · rw [if_neg h]

/-- Lowercasing one character is idempotent. -/
lemma pyLowerChar_pyLowerChar (c : Char) :
    pyLowerChar (pyLowerChar c) = pyLowerChar c := by
  unfold pyLowerChar
  by_cases h : 65 ≤ c.toNat ∧ c.toNat ≤ 90
  · rw [if_pos h]
    rw [if_neg (by rw [toNat_charOfNat_of_lt (c.toNat + 32) (by omega)]; omega)]
  · rw [if_neg h, if_neg h]

/-- A list fixed by the leading strip stays fixed after the trailing
strip. -/
lemma dropWhile_rdropWhile_fix (u : List Char)
    (hu : List.dropWhile pyIsSpace u = u) :
    List.dropWhile pyIsSpace (List.rdropWhile pyIsSpace u) =
      List.rdropWhile pyIsSpace u := by
  rw [List.dropWhile_eq_self_iff]
  intro h0
  obtain ⟨t, ht⟩ := List.rdropWhile_prefix pyIsSpace u
  have h0u : 0 < u.length := by
    rw [← ht]
    simp only [List.length_append]
    omega
  have h9 : (List.rdropWhile pyIsSpace u)[0]? = u[0]? := by
    conv_rhs => rw [← ht]
    exact (List.getElem?_append_left h0).symm
  have ha : (List.rdropWhile pyIsSpace u)[0]? =
      some ((List.rdropWhile pyIsSpace u).get ⟨0, h0⟩) := by
    simp [List.getElem?_eq_getElem, h0]
  have hb : u[0]? = some (u.get ⟨0, h0u⟩) := by
    simp [List.getElem?_eq_getElem, h0u]
  have hget : (List.rdropWhile pyIsSpace u).get ⟨0, h0⟩ = u.get ⟨0, h0u⟩ := by
    rw [ha, hb] at h9
    exact Option.some_injective _ h9
  rw [hget]
  exact List.dropWhile_eq_self_iff.mp hu h0u

/-- Python `str.strip` is idempotent. -/
lemma pyStripChars_idem (l : List Char) :
    pyStripChars (pyStripChars l) = pyStripChars l := by
  show rstripChars (lstripChars (rstripChars (lstripChars l))) = _
  unfold rstripChars lstripChars
  have h1 : List.dropWhile pyIsSpace
      (List.dropWhile pyIsSpace l) = List.dropWhile pyIsSpace l :=
    List.dropWhile_idempotent pyIsSpace l
  have h2 := dropWhile_rdropWhile_fix (List.dropWhile pyIsSpace l) h1
  unfold List.rdropWhile at h2
  rw [h2]
  have h3 := List.rdropWhile_idempotent pyIsSpace (List.dropWhile pyIsSpace l)
  unfold List.rdropWhile at h3
  exact h3

/-- Trailing all-whitespace junk is invisible to the trailing strip. -/
lemma rdropWhile_append_spaces (x w : List Char)
    (hw : ∀ c ∈ w, pyIsSpace c = true) :
    List.rdropWhile pyIsSpace (x ++ w) = List.rdropWhile pyIsSpace x := by
  unfold List.rdropWhile
  rw [List.reverse_append]
  rw [List.dropWhile_append_of_pos (by
    intro a ha
    exact hw a (List.mem_reverse.mp ha))]

/-- Python `str.strip` ignores added leading and trailing whitespace. -/
lemma pyStripChars_append_spaces (w1 w2 s : List Char)
    (h1 : ∀ c ∈ w1, pyIsSpace c = true)
    (h2 : ∀ c ∈ w2, pyIsSpace c = true) :
    pyStripChars (w1 ++ s ++ w2) = pyStripChars s := by
  unfold pyStripChars lstripChars
  rw [List.append_assoc, List.dropWhile_append_of_pos h1, List.dropWhile_append]
  by_cases he : (List.dropWhile pyIsSpace s).isEmpty
  · rw [if_pos he]
    have hs0 : List.dropWhile pyIsSpace s = [] := by
      rwa [List.isEmpty_iff] at he
    have hw0 : List.dropWhile pyIsSpace w2 = [] := by
      rw [List.dropWhile_eq_nil_iff]
      exact h2
    rw [hs0, hw0]
  · rw [if_neg he]
    exact rdropWhile_append_spaces (List.dropWhile pyIsSpace s) w2 h2

/-- Python `str.strip` commutes with `str.lower`. -/
lemma pyStripChars_map_lower (l : List Char) :
    pyStripChars (l.map pyLowerChar) = (pyStripChars l).map pyLowerChar := by
  have hp : (pyIsSpace ∘ pyLowerChar) = pyIsSpace :=
    funext pyIsSpace_pyLowerChar
  unfold pyStripChars lstripChars rstripChars
  rw [List.dropWhile_map, hp, ← List.map_reverse, List.dropWhile_map, hp,
    ← List.map_reverse]

/-- Claim C7: the request-signature function is idempotent, identifies
strings that differ only in letter case, identifies strings that differ
only in added leading or trailing whitespace, and in particular maps
" Foo " and "foo" to the same signature. -/
theorem signature_normalization :
    (∀ q : String,
      get_question_signature (get_question_signature q) =
        get_question_signature q) ∧
    (∀ s t : String, s.data.map pyLowerChar = t.data.map pyLowerChar →
      get_question_signature s = get_question_signature t) ∧
    (∀ (w1 w2 : List Char) (s : String),
      (∀ c ∈ w1, pyIsSpace c = true) → (∀ c ∈ w2, pyIsSpace c = true) →
      get_question_signature (String.mk (w1 ++ s.data ++ w2)) =
        get_question_signature s) ∧
    get_question_signature " Foo " = get_question_signature "foo" := by
  have hlow : ∀ u : List Char,
      (u.map pyLowerChar).map pyLowerChar = u.map pyLowerChar := by
    intro u
    rw [List.map_map]
    exact List.map_congr_left (fun c _ => pyLowerChar_pyLowerChar c)
  refine ⟨?_, ?_, ?_, by decide⟩
  · intro q
    show String.mk ((pyStripChars ((pyStripChars q.data).map pyLowerChar)).map
        pyLowerChar) = _
    rw [pyStripChars_map_lower, pyStripChars_idem, hlow]
    rfl
  · intro s t h
    show String.mk ((pyStripChars s.data).map pyLowerChar) =
      String.mk ((pyStripChars t.data).map pyLowerChar)
    rw [← pyStripChars_map_lower, ← pyStripChars_map_lower, h]
  · intro w1 w2 s h1 h2
    show String.mk ((pyStripChars (w1 ++ s.data ++ w2)).map pyLowerChar) = _
    rw [pyStripChars_append_spaces w1 w2 s.data h1 h2]
    rfl

/-- Witness for C7: idempotence at a mixed-case padded string,
case-identification at "AbC" and "abc", whitespace-identification at
"foo" padded with one space on each side. -/
theorem signature_normalization_witness :
    get_question_signature (get_question_signature " MiXeD Case ") =
      get_question_signature " MiXeD Case " ∧
    get_question_signature "AbC" = get_question_signature "abc" ∧
    get_question_signature (String.mk ([' '] ++ "foo".data ++ [' '])) =
      get_question_signature "foo" :=
  ⟨signature_normalization.1 " MiXeD Case ",
   signature_normalization.2.1 "AbC" "abc" (by decide),
   signature_normalization.2.2.1 [' '] [' '] "foo" (by decide) (by decide)⟩

end Toolbox
